import Mathlib

/-!
# Verification of the gateway-addon property/action model

Shallow embedding of `src/property.ts` (class `Property`) and the Action
source file (class `Action`) of the gateway-addon-node repository, together
with proofs about the embedded operations.

Modelling conventions:

* JavaScript values are modelled by `JSVal`: `undef`, `null`, booleans,
  finite numbers, strings, and plain objects (identified by a reference id).
  `NaN`, `±Infinity` and `-0` are not representable; no claim under
  verification involves them as property values.
* JavaScript numbers (IEEE-754 binary64) are represented exactly by
  `JsRat`, an unnormalised rational `n / d` (integer numerator, positive
  natural denominator).  Every finite double is such a rational, and
  comparisons (`<`, `>`, `===`) of finite doubles coincide with exact
  rational comparisons, so those are embedded as exact comparisons.
  The two operations of the source that *round* — the division
  `numberValue / multipleOf` and the subtraction in the multiple-of check —
  are embedded by `f64div`/`f64sub`, which round the exact rational result
  to the nearest binary64 value (`roundF64`, round-to-nearest, ties to
  even).  The model uses an unbounded exponent range (no overflow to
  `Infinity`, no flush to zero); it agrees with IEEE binary64 whenever the
  rounded results stay in the normal finite range, which covers all inputs
  appearing in the theorems below.
* `Math.round` is embedded by `jsRound`: the nearest integer, ties toward
  `+∞` (the ECMAScript specification of `Math.round`); for any double `x`
  this integer is exactly representable, so no re-rounding is applied.
-/

/-- An unnormalised rational number `n / d` used to represent a finite
JavaScript number (IEEE-754 binary64 value) exactly.  All operations keep
the denominator positive; theorems carry `0 < d` hypotheses where needed. -/
structure JsRat where
  n : Int
  d : Nat
deriving DecidableEq, Repr

/-- The exact rational value of a `JsRat`, used in specifications. -/
def JsRat.val (q : JsRat) : ℚ := (q.n : ℚ) / (q.d : ℚ)

/-- Exact difference of two `JsRat`s (cross multiplication). -/
def JsRat.sub (a b : JsRat) : JsRat :=
  ⟨a.n * (b.d : Int) - b.n * (a.d : Int), a.d * b.d⟩

/-- Exact quotient of two `JsRat`s.  Division by a zero numerator would be
`±Infinity`/`NaN` in JavaScript, which the model cannot represent; callers
(the multiple-of check) branch on that case before dividing, and this
function returns the junk value `0` there. -/
def JsRat.div (a b : JsRat) : JsRat :=
  if b.n = 0 then ⟨0, 1⟩
  else ⟨(if b.n < 0 then -a.n else a.n) * (b.d : Int), b.n.natAbs * a.d⟩

/-- Exact comparison `a < b` (denominators assumed positive). -/
def JsRat.lt (a b : JsRat) : Bool := a.n * (b.d : Int) < b.n * (a.d : Int)

/-- Exact value equality `a === b` (denominators assumed positive). -/
def JsRat.beq (a b : JsRat) : Bool := a.n * (b.d : Int) = b.n * (a.d : Int)

/-- `⌊log₂ n⌋` by fuel recursion (correct whenever `n ≤ fuel`), kept
structural so that concrete instances evaluate by kernel reduction. -/
def lg2 : Nat → Nat → Nat
  | 0, _ => 0
  | fuel + 1, n => if n ≤ 1 then 0 else lg2 fuel (n / 2) + 1

/-- Decides `2 ^ k * b ≤ a` for an integer exponent `k`, by clearing the
power to whichever side keeps it a natural number. -/
def powLeTest (a b : Nat) (k : Int) : Bool :=
  if 0 ≤ k then b * 2 ^ k.toNat ≤ a else b ≤ a * 2 ^ (-k).toNat

/-- `⌊log₂ (a / b)⌋` for positive naturals `a`, `b`: the unique `k` with
`2 ^ k ≤ a / b < 2 ^ (k + 1)`. -/
def floorLg (a b : Nat) : Int :=
  let k0 : Int := (lg2 a a : Int) - (lg2 b b : Int)
  if powLeTest a b k0 then k0 else k0 - 1

/-- The pair of naturals representing `(a / b) * 2 ^ (-e)`. -/
def scalePair (a b : Nat) (e : Int) : Nat × Nat :=
  if 0 ≤ e then (a, b * 2 ^ e.toNat) else (a * 2 ^ (-e).toNat, b)

/-- Round an exact rational to the nearest IEEE-754 binary64 value
(round to nearest, ties to even; 53-bit significand; unbounded exponent
range, see the module docstring). -/
def roundF64 (q : JsRat) : JsRat :=
  if q.n = 0 then ⟨0, 1⟩ else
  let a := q.n.natAbs
  let b := q.d
  let e : Int := floorLg a b - 52
  let sp := scalePair a b e
  let n0 := sp.1 / sp.2
  let r := sp.1 % sp.2
  let m : Nat :=
    if 2 * r < sp.2 then n0
    else if sp.2 < 2 * r then n0 + 1
    else if n0 % 2 = 0 then n0 else n0 + 1
  let sgn : Int := if q.n < 0 then -1 else 1
  if 0 ≤ e then ⟨sgn * (m * 2 ^ e.toNat : Nat), 1⟩ else ⟨sgn * m, 2 ^ (-e).toNat⟩

/-- IEEE binary64 division: round the exact quotient. -/
def f64div (a b : JsRat) : JsRat := roundF64 (JsRat.div a b)

/-- IEEE binary64 subtraction: round the exact difference. -/
def f64sub (a b : JsRat) : JsRat := roundF64 (JsRat.sub a b)

/-- `Math.round` on an exact double value: the nearest integer, ties toward
`+∞`, i.e. `⌊x + 1/2⌋`; exactly representable for every double input. -/
def jsRound (x : JsRat) : JsRat := ⟨(2 * x.n + (x.d : Int)).fdiv (2 * (x.d : Int)), 1⟩

/-!
## JavaScript values

`JSVal` models the JavaScript values a property can hold.  `NaN`,
`±Infinity` and `-0` are not representable (see module docstring); objects
are identified by a reference id, and are assumed to be plain objects
(default `toString`/`valueOf`, so their string conversion is
`"[object Object]"` and their numeric conversion is `NaN`).
-/

inductive JSVal where
  | undef : JSVal
  | null : JSVal
  | bool (b : Bool) : JSVal
  | num (q : JsRat) : JSVal
  | str (s : String) : JSVal
  | obj (id : Nat) : JSVal
deriving DecidableEq, Repr

/-- Digit-run scanner: accumulated value, number of digits consumed, rest. -/
def takeDigits : Nat → Nat → List Char → Nat × Nat × List Char
  | acc, cnt, [] => (acc, cnt, [])
  | acc, cnt, c :: cs =>
    if c.isDigit then takeDigits (10 * acc + (c.toNat - 48)) (cnt + 1) cs
    else (acc, cnt, c :: cs)

/-- JavaScript whitespace accepted by `ToNumber` (ASCII subset). -/
def isJsWs (c : Char) : Bool :=
  c = ' ' ∨ c = '\t' ∨ c = '\n' ∨ c = '\r' ∨ c = '\x0b' ∨ c = '\x0c'

/-- Optional exponent part (`e`/`E`, optional sign, digits) applied to the
mantissa `n / d`; the whole rest of the input must be consumed. -/
def parseExpPart (n d : Nat) (neg : Bool) : List Char → Option JsRat
  | [] => some (roundF64 ⟨if neg then -(n : Int) else (n : Int), d⟩)
  | c :: cs =>
    if c = 'e' ∨ c = 'E' then
      let signAndRest : Bool × List Char :=
        match cs with
        | '+' :: cs' => (false, cs')
        | '-' :: cs' => (true, cs')
        | cs' => (false, cs')
      let td := takeDigits 0 0 signAndRest.2
      if td.2.1 = 0 ∨ td.2.2 ≠ [] then none
      else
        let nv := if signAndRest.1 then n else n * 10 ^ td.1
        let dv := if signAndRest.1 then d * 10 ^ td.1 else d
        some (roundF64 ⟨if neg then -(nv : Int) else (nv : Int), dv⟩)
    else none

/-- `ToNumber` on the trimmed, sign-stripped body of a string literal:
`digits [. digits] [exponent]` or `. digits [exponent]`. -/
def parseNumBody (neg : Bool) (cs : List Char) : Option JsRat :=
  let ti := takeDigits 0 0 cs
  match ti.2.2 with
  | '.' :: rest =>
    let tf := takeDigits 0 0 rest
    if ti.2.1 + tf.2.1 = 0 then none
    else parseExpPart (ti.1 * 10 ^ tf.2.1 + tf.1) (10 ^ tf.2.1) neg tf.2.2
  | rest =>
    if ti.2.1 = 0 then none else parseExpPart ti.1 1 neg rest

/-- JavaScript `ToNumber` on a string, producing the binary64 value the
runtime would produce; `none` plays the role of `NaN`.  Deviations from the
full ECMAScript grammar (documented model abstractions): the `Infinity`
literal and the `0x`/`0o`/`0b` radix prefixes are mapped to `none`, and
only ASCII whitespace is trimmed.  No theorem below depends on those
inputs. -/
def jsStrToNum (s : String) : Option JsRat :=
  let cs := (s.data.dropWhile isJsWs).reverse.dropWhile isJsWs |>.reverse
  match cs with
  | [] => some ⟨0, 1⟩
  | '+' :: rest => parseNumBody false rest
  | '-' :: rest => parseNumBody true rest
  | rest => parseNumBody false rest

/-- JavaScript `ToNumber` of a value; `none` plays the role of `NaN`. -/
def toNumberVal : JSVal → Option JsRat
  | .undef => none
  | .null => some ⟨0, 1⟩
  | .bool b => some ⟨if b then 1 else 0, 1⟩
  | .num q => some q
  | .str s => jsStrToNum s
  | .obj _ => none

/-- JavaScript truthiness (`!!value`). -/
def jsTruthy : JSVal → Bool
  | .undef => false
  | .null => false
  | .bool b => b
  | .num q => !(q.n = 0)
  | .str s => !(s = "")
  | .obj _ => true

/-- JavaScript number-to-string.  Integer-valued numbers render as their
decimal numeral, as in JavaScript (for integers in the safe range, which
covers every theorem below).  The shortest-round-trip decimal rendering of
non-integral doubles is abstracted by an inert `~n/d` marker; no theorem
relies on the rendering of a non-integral number. -/
def jsNumToString (q : JsRat) : String :=
  if q.n % (q.d : Int) = 0 then toString (q.n / (q.d : Int))
  else "~" ++ toString q.n ++ "/" ++ toString q.d

/-- JavaScript string conversion (template-literal interpolation). -/
def jsToString : JSVal → String
  | .undef => "undefined"
  | .null => "null"
  | .bool true => "true"
  | .bool false => "false"
  | .num q => jsNumToString q
  | .str s => s
  | .obj _ => "[object Object]"

/-- JavaScript strict equality `===` (value equality on primitives,
reference equality on objects; no `NaN` in the model). -/
def jsStrictEq : JSVal → JSVal → Bool
  | .undef, .undef => true
  | .null, .null => true
  | .bool a, .bool b => a = b
  | .num a, .num b => JsRat.beq a b
  | .str a, .str b => a = b
  | .obj i, .obj j => i = j
  | _, _ => false

/-- JavaScript loose equality `==` (the Abstract Equality Comparison),
restricted to the values of the model: `null == undefined`; numbers and
strings compare via `ToNumber`; booleans coerce to `0`/`1`; a plain object
converts to the primitive `"[object Object]"`. -/
def jsLooseEq : JSVal → JSVal → Bool
  | .undef, .undef => true
  | .undef, .null => true
  | .null, .undef => true
  | .null, .null => true
  | .bool a, .bool b => a = b
  | .num a, .num b => JsRat.beq a b
  | .str a, .str b => a = b
  | .obj i, .obj j => i = j
  | .num a, .str s => (jsStrToNum s).rec false (fun b => JsRat.beq a b)
  | .str s, .num b => (jsStrToNum s).rec false (fun a => JsRat.beq a b)
  | .bool a, .num b => JsRat.beq ⟨if a then 1 else 0, 1⟩ b
  | .num a, .bool b => JsRat.beq a ⟨if b then 1 else 0, 1⟩
  | .bool a, .str s => (jsStrToNum s).rec false (fun b => JsRat.beq ⟨if a then 1 else 0, 1⟩ b)
  | .str s, .bool b => (jsStrToNum s).rec false (fun a => JsRat.beq a ⟨if b then 1 else 0, 1⟩)
  | .str s, .obj _ => s = "[object Object]"
  | .obj _, .str s => s = "[object Object]"
  | _, _ => false

/-!
## The `Property` class (src/property.ts)

The mutable fields of `Property<T>` are collected in `PropState`; the
generic value type `T` is instantiated with `JSVal`.  Fields typed
`X | undefined` in the source become `Option X`.  The owning `Device` is an
external collaborator reached only through `notifyPropertyChanged`; the
embedding returns the number of such calls instead of performing them.
-/

structure Link where
  rel : String
  href : String
deriving DecidableEq, Repr

structure PropState where
  name : String
  title : Option String
  type : String
  atType : Option String
  unit : Option String
  descr : Option String
  minimum : Option JsRat
  maximum : Option JsRat
  enums : Option (List String)
  readOnly : Option Bool
  multipleOf : Option JsRat
  links : List Link
  visible : Bool
  fireAndForget : Bool
  value : JSVal
  prevGetValue : JSVal
deriving DecidableEq, Repr

/-- `setCachedValue`: store the value, coercing to a strict boolean
(`!!value`) when the property type is `"boolean"`. -/
def Property.setCachedValue (p : PropState) (v : JSVal) : PropState :=
  if p.type = "boolean" then { p with value := JSVal.bool (jsTruthy v) }
  else { p with value := v }

/-- `setCachedValueAndNotify`: store via `setCachedValue`, compare the old
cached value against the new one with `!==`, and report whether
`device.notifyPropertyChanged` fires (it fires exactly when the value
changed). -/
def Property.setCachedValueAndNotify (p : PropState) (v : JSVal) : PropState × Bool :=
  let oldValue := p.value
  let p' := Property.setCachedValue p v
  let hasChanged := !(jsStrictEq oldValue p'.value)
  (p', hasChanged)

/-- `getValue`: update `prevGetValue` when it differs (loose `!=`) from the
cached value, and resolve with the cached value. -/
def Property.getValue (p : PropState) : PropState × JSVal :=
  let p' := if !(jsLooseEq p.value p.prevGetValue) then { p with prevGetValue := p.value } else p
  (p', p'.value)

inductive SetValueOutcome where
  | rejected (reason : String) : SetValueOutcome
  | resolved (value : JSVal) : SetValueOutcome
deriving DecidableEq, Repr

def SetValueOutcome.isRejected : SetValueOutcome → Bool
  | .rejected _ => true
  | .resolved _ => false

structure WriteResult where
  state : PropState
  outcome : SetValueOutcome
  notifies : Nat
deriving DecidableEq, Repr

/-- The `minimum` guard of `setValue`: `this.minimum != undefined &&
numberValue < this.minimum` (the relational comparison applies `ToNumber`
to the value; a `NaN` comparison is false). -/
def belowMinimum (p : PropState) (v : JSVal) : Bool :=
  match p.minimum with
  | none => false
  | some m =>
    match toNumberVal v with
    | none => false
    | some q => JsRat.lt q m

/-- The `maximum` guard of `setValue`: `this.maximum != undefined &&
numberValue > this.maximum`. -/
def aboveMaximum (p : PropState) (v : JSVal) : Bool :=
  match p.maximum with
  | none => false
  | some m =>
    match toNumberVal v with
    | none => false
    | some q => JsRat.lt m q

/-- The `multipleOf` guard of `setValue`:
`numberValue / multipleOf - Math.round(numberValue / multipleOf) !== 0`,
computed in binary64.  When `ToNumber` of the value is `NaN`, or
`multipleOf` is `0` (quotient `NaN` or `±Infinity`), the left-hand side is
`NaN`, which is `!== 0`, so the guard holds. -/
def notAMultiple (p : PropState) (v : JSVal) : Bool :=
  match p.multipleOf with
  | none => false
  | some k =>
    match toNumberVal v with
    | none => true
    | some q =>
      if k.n = 0 then true
      else !((f64sub (f64div q k) (jsRound (f64div q k))).n = 0)

/-- The `enum` guard of `setValue`: a non-empty enum is defined and does
not contain the string rendering of the value. -/
def invalidEnum (p : PropState) (v : JSVal) : Bool :=
  match p.enums with
  | none => false
  | some es => decide (0 < es.length) && !(es.contains (jsToString v))

/-- `setValue`: the public write path of `Property` — the ordered guard
sequence of the source (read-only, minimum, maximum, multipleOf, enum),
rejecting with the source's reason strings, then
`setCachedValueAndNotify` and resolution with the (possibly coerced)
cached value. -/
def Property.setValue (p : PropState) (v : JSVal) : WriteResult :=
  if p.readOnly = some true then
    ⟨p, .rejected "Read-only property", 0⟩
  else if belowMinimum p v then
    ⟨p, .rejected ("Value less than minimum: "
        ++ jsNumToString (p.minimum.getD ⟨0, 1⟩)), 0⟩
  else if aboveMaximum p v then
    ⟨p, .rejected ("Value greater than maximum: "
        ++ jsNumToString (p.maximum.getD ⟨0, 1⟩)), 0⟩
  else if notAMultiple p v then
    ⟨p, .rejected ("Value is not a multiple of: "
        ++ jsNumToString (p.multipleOf.getD ⟨0, 1⟩)), 0⟩
  else if invalidEnum p v then
    ⟨p, .rejected "Invalid enum value", 0⟩
  else
    let r := Property.setCachedValueAndNotify p v
    ⟨r.1, .resolved r.1.value, if r.2 then 1 else 0⟩

/-- Values of the outward property-description object.  The description
fields of `Property` are strings, numbers, booleans, a string list
(`enum`) or a link list (`links`); none of them can be `null`, so the
emitted values are either such data or `undefined`. -/
inductive DescVal where
  | undef : DescVal
  | s (v : String) : DescVal
  | n (v : JsRat) : DescVal
  | b (v : Bool) : DescVal
  | sl (v : List String) : DescVal
  | ll (v : List Link) : DescVal
deriving DecidableEq, Repr

def oS : Option String → DescVal := fun o => o.elim DescVal.undef DescVal.s
def oN : Option JsRat → DescVal := fun o => o.elim DescVal.undef DescVal.n
def oB : Option Bool → DescVal := fun o => o.elim DescVal.undef DescVal.b
def oSL : Option (List String) → DescVal := fun o => o.elim DescVal.undef DescVal.sl

/-- `asPropertyDescription`: the outward description object, modelled as
the ordered key/value list of the object literal in the source.  The
literal names every key, so a key whose field is `undefined` is *present*
with value `undefined`. -/
def Property.asPropertyDescription (p : PropState) : List (String × DescVal) :=
  [("title", oS p.title),
   ("type", DescVal.s p.type),
   ("@type", oS p.atType),
   ("unit", oS p.unit),
   ("description", oS p.descr),
   ("minimum", oN p.minimum),
   ("maximum", oN p.maximum),
   ("enum", oSL p.enums),
   ("readOnly", oB p.readOnly),
   ("multipleOf", oN p.multipleOf),
   ("links", DescVal.ll p.links)]

/-!
## The `Action` class

`timestamp()` lives in `src/utils.ts`, which is not part of the sources
under verification.  Modelled from the spec: the spec stipulates an
externally provided monotonic wall-clock string generator, so clock
readings are modelled as natural numbers supplied to the constructor and
to `finish`, with monotonicity a hypothesis of the lifecycle theorem; the
formatting of a reading as a string is `tsRepr` (injective, otherwise
uninterpreted). -/
def tsRepr (t : Nat) : String := toString t

structure ActionState where
  status : String
  timeRequested : Nat
  timeCompleted : Option Nat
  id : String
  name : String
  input : JSVal
deriving DecidableEq, Repr

/-- The `Action` constructor: status `'created'`, `timeRequested` drawn
from the clock, no `timeCompleted`. -/
def Action.create (id : String) (name : String) (input : JSVal) (now : Nat) : ActionState :=
  ⟨"created", now, none, id, name, input⟩

/-- `start()`: set status `'pending'` and call `device.actionNotify` once
(the returned number counts those calls). -/
def Action.start (a : ActionState) : ActionState × Nat :=
  ({ a with status := "pending" }, 1)

/-- `finish()`: set status `'completed'`, stamp `timeCompleted` from the
clock, and call `device.actionNotify` once. -/
def Action.finish (a : ActionState) (now : Nat) : ActionState × Nat :=
  ({ a with status := "completed", timeCompleted := some now }, 1)

/-- The JavaScript value of the `timeCompleted` field: a string once set,
`undefined` before. -/
def tcVal : Option Nat → JSVal := fun o => o.elim JSVal.undef (fun t => JSVal.str (tsRepr t))

/-- `asActionDescription`: base object with `name`, `timeRequested` and
`status`, then `input` added when `this.input !== null`, then
`timeCompleted` added when `this.timeCompleted !== null` — both guards
compare against `null` exactly as the source does. -/
def Action.asActionDescription (a : ActionState) : List (String × JSVal) :=
  [("name", JSVal.str a.name),
   ("timeRequested", JSVal.str (tsRepr a.timeRequested)),
   ("status", JSVal.str a.status)]
  ++ (if jsStrictEq a.input JSVal.null then [] else [("input", a.input)])
  ++ (if jsStrictEq (tcVal a.timeCompleted) JSVal.null then []
      else [("timeCompleted", tcVal a.timeCompleted)])

/-- `asDict`: the dense record view, every field always present. -/
def Action.asDict (a : ActionState) : List (String × JSVal) :=
  [("id", JSVal.str a.id),
   ("name", JSVal.str a.name),
   ("input", a.input),
   ("status", JSVal.str a.status),
   ("timeRequested", JSVal.str (tsRepr a.timeRequested)),
   ("timeCompleted", tcVal a.timeCompleted)]

/-!
## Properties of the binary64 rounding model

The facts needed below: `roundF64` maps zero and only zero to zero, its
denominator is positive, and hence the binary64 difference of two exact
values is zero exactly when the values are equal.
-/

theorem lg2_bounds : ∀ fuel n : Nat, 1 ≤ n → n ≤ fuel →
    2 ^ lg2 fuel n ≤ n ∧ n < 2 ^ (lg2 fuel n + 1) := by
  intro fuel
  induction fuel with
  | zero => intro n h1 h2 ; omega
  | succ fuel ih =>
    intro n h1 h2
    rw [lg2]
    by_cases hsmall : n ≤ 1
    · have hn1 : n = 1 := le_antisymm hsmall h1
      simp [hsmall, hn1]
    · rw [if_neg hsmall]
      have h2n : 2 ≤ n := by omega
      have hd1 : 1 ≤ n / 2 := (Nat.one_le_div_iff (by omega)).mpr h2n
      have hlt : n / 2 < n := Nat.div_lt_self (by omega) (by omega)
      have hdf : n / 2 ≤ fuel := by omega
      obtain ⟨hlo, hhi⟩ := ih (n / 2) hd1 hdf
      constructor
      · calc 2 ^ (lg2 fuel (n / 2) + 1) = 2 ^ lg2 fuel (n / 2) * 2 := by ring
        _ ≤ n / 2 * 2 := by omega
        _ ≤ n := Nat.div_mul_le_self n 2
      · have hx := (Nat.div_lt_iff_lt_mul (show 0 < 2 by omega)).mp hhi
        calc n < 2 ^ (lg2 fuel (n / 2) + 1) * 2 := hx
        _ = 2 ^ (lg2 fuel (n / 2) + 1 + 1) := by ring

theorem powLeTest_iff (a b : Nat) (k : Int) :
    powLeTest a b k = true ↔ (2 : ℚ) ^ k * b ≤ a := by
  unfold powLeTest
  by_cases hk : 0 ≤ k
  · obtain ⟨m, rfl⟩ : ∃ m : ℕ, k = (m : Int) := ⟨k.toNat, (Int.toNat_of_nonneg hk).symm⟩
    rw [if_pos hk, decide_eq_true_eq, zpow_natCast, Int.toNat_ofNat]
    rw [mul_comm ((2 : ℚ) ^ m) (b : ℚ)]
    rw [show (b : ℚ) * 2 ^ m = ((b * 2 ^ m : ℕ) : ℚ) by push_cast ; ring]
    exact Nat.cast_le.symm
  · obtain ⟨m, rfl⟩ : ∃ m : ℕ, k = -(m : Int) := ⟨(-k).toNat, by omega⟩
    rw [if_neg hk, decide_eq_true_eq]
    rw [show (-(-(m : Int))).toNat = m by rw [neg_neg, Int.toNat_ofNat]]
    rw [zpow_neg, zpow_natCast]
    have hp : (0 : ℚ) < 2 ^ m := by positivity
    rw [inv_mul_le_iff₀ hp]
    rw [show (2 : ℚ) ^ m * a = ((a * 2 ^ m : ℕ) : ℚ) by push_cast ; ring]
    exact Nat.cast_le.symm

theorem floorLg_le (a b : Nat) (ha : 1 ≤ a) (hb : 1 ≤ b) :
    (2 : ℚ) ^ floorLg a b * b ≤ a := by
  unfold floorLg
  by_cases htest : powLeTest a b ((lg2 a a : Int) - (lg2 b b : Int)) = true
  · rw [if_pos htest]
    exact (powLeTest_iff a b _).mp htest
  · rw [if_neg htest]
    obtain ⟨hal, _⟩ := lg2_bounds a a ha le_rfl
    obtain ⟨_, hbh⟩ := lg2_bounds b b hb le_rfl
    have hbq : (b : ℚ) < 2 ^ ((lg2 b b : Int) + 1) := by
      rw [show ((lg2 b b : Int) + 1) = ((lg2 b b + 1 : ℕ) : Int) by push_cast ; ring]
      rw [zpow_natCast]
      exact_mod_cast hbh
    have haq : (2 : ℚ) ^ ((lg2 a a : ℕ) : Int) ≤ a := by
      rw [zpow_natCast]
      exact_mod_cast hal
    have hpos : (0 : ℚ) < 2 ^ ((lg2 a a : Int) - (lg2 b b : Int) - 1) := by positivity
    refine le_of_lt ?_
    calc (2 : ℚ) ^ ((lg2 a a : Int) - (lg2 b b : Int) - 1) * b
        < 2 ^ ((lg2 a a : Int) - (lg2 b b : Int) - 1) * 2 ^ ((lg2 b b : Int) + 1) :=
          mul_lt_mul_of_pos_left hbq hpos
      _ = 2 ^ ((lg2 a a : ℕ) : Int) := by
          rw [← zpow_add₀ (show (2 : ℚ) ≠ 0 by norm_num)]
          congr 1
          ring
      _ ≤ a := haq

theorem scalePair_le (a b : Nat) (e : Int) (h : powLeTest a b e = true) :
    (scalePair a b e).2 ≤ (scalePair a b e).1 := by
  unfold powLeTest at h
  unfold scalePair
  by_cases he : 0 ≤ e
  · rw [if_pos he] ; rw [if_pos he] at h ; simpa using h
  · rw [if_neg he] ; rw [if_neg he] at h ; simpa using h

theorem scalePair_pos (a b : Nat) (e : Int) (hb : 0 < b) : 0 < (scalePair a b e).2 := by
  unfold scalePair
  by_cases he : 0 ≤ e
  · rw [if_pos he] ; positivity
  · rw [if_neg he] ; simpa using hb

theorem roundF64_d_pos (q : JsRat) : 0 < (roundF64 q).d := by
  unfold roundF64
  by_cases h0 : q.n = 0
  · rw [if_pos h0] ; norm_num
  · rw [if_neg h0]
    by_cases he : 0 ≤ floorLg q.n.natAbs q.d - 52
    · simp only [he, if_true] ; norm_num
    · simp only [he, if_false] ; positivity

theorem roundF64_n_ne_zero (q : JsRat) (hd : 0 < q.d) (hn : q.n ≠ 0) :
    (roundF64 q).n ≠ 0 := by
  unfold roundF64
  rw [if_neg hn]
  have ha : 1 ≤ q.n.natAbs := Int.natAbs_pos.mpr hn
  have hb : 1 ≤ q.d := hd
  have hklow : (2 : ℚ) ^ floorLg q.n.natAbs q.d * q.d ≤ q.n.natAbs :=
    floorLg_le _ _ ha hb
  have helow : (2 : ℚ) ^ (floorLg q.n.natAbs q.d - 52) * q.d ≤ q.n.natAbs := by
    refine le_trans (mul_le_mul_of_nonneg_right ?_ (by positivity)) hklow
    exact zpow_le_zpow_right₀ (by norm_num) (by omega)
  have htest : powLeTest q.n.natAbs q.d (floorLg q.n.natAbs q.d - 52) = true :=
    (powLeTest_iff _ _ _).mpr helow
  have hle := scalePair_le q.n.natAbs q.d (floorLg q.n.natAbs q.d - 52) htest
  have hpos := scalePair_pos q.n.natAbs q.d (floorLg q.n.natAbs q.d - 52) hd
  have hn0 : 1 ≤ (scalePair q.n.natAbs q.d (floorLg q.n.natAbs q.d - 52)).1
      / (scalePair q.n.natAbs q.d (floorLg q.n.natAbs q.d - 52)).2 :=
    (Nat.one_le_div_iff hpos).mpr hle
  set sp := scalePair q.n.natAbs q.d (floorLg q.n.natAbs q.d - 52) with hsp
  set n0 := sp.1 / sp.2 with hn0def
  have hm : 1 ≤ (if 2 * (sp.1 % sp.2) < sp.2 then n0
      else if sp.2 < 2 * (sp.1 % sp.2) then n0 + 1
      else if n0 % 2 = 0 then n0 else n0 + 1) := by
    split
    · exact hn0
    · split
      · omega
      · split
        · exact hn0
        · omega
  set m := (if 2 * (sp.1 % sp.2) < sp.2 then n0
      else if sp.2 < 2 * (sp.1 % sp.2) then n0 + 1
      else if n0 % 2 = 0 then n0 else n0 + 1) with hmdef
  have hsgn : (if q.n < 0 then (-1 : Int) else 1) ≠ 0 := by split <;> norm_num
  by_cases he : 0 ≤ floorLg q.n.natAbs q.d - 52
  · simp only [he, if_true]
    refine mul_ne_zero hsgn ?_
    have h1 : 1 ≤ 2 ^ (floorLg q.n.natAbs q.d - 52).toNat := Nat.one_le_two_pow
    have h2 : m * 2 ^ (floorLg q.n.natAbs q.d - 52).toNat ≠ 0 := by
      have := Nat.mul_le_mul hm h1
      omega
    exact_mod_cast Nat.cast_ne_zero.mpr h2
  · simp only [he, if_false]
    refine mul_ne_zero hsgn ?_
    have h2 : m ≠ 0 := by omega
    exact_mod_cast Nat.cast_ne_zero.mpr h2

/-- The binary64 difference of two exact values is zero exactly when the
values are equal (no underflow-to-zero for a nonzero exact difference). -/
theorem f64sub_n_eq_zero_iff (x y : JsRat) (hx : 0 < x.d) (hy : 0 < y.d) :
    (f64sub x y).n = 0 ↔ JsRat.beq x y = true := by
  have hsubn : (JsRat.sub x y).n = x.n * (y.d : Int) - y.n * (x.d : Int) := rfl
  have hsubd : (JsRat.sub x y).d = x.d * y.d := rfl
  unfold JsRat.beq
  rw [decide_eq_true_eq]
  constructor
  · intro h
    by_contra hne
    have hn0 : (JsRat.sub x y).n ≠ 0 := by rw [hsubn] ; omega
    exact roundF64_n_ne_zero _ (by rw [hsubd] ; positivity) hn0 h
  · intro h
    have hn0 : (JsRat.sub x y).n = 0 := by rw [hsubn] ; omega
    unfold f64sub roundF64
    rw [if_pos hn0]

/-- `JsRat.beq` decides equality of the represented rational values. -/
theorem beq_iff_val (x y : JsRat) (hx : 0 < x.d) (hy : 0 < y.d) :
    JsRat.beq x y = true ↔ x.val = y.val := by
  have hx' : ((x.d : ℚ)) ≠ 0 := by positivity
  have hy' : ((y.d : ℚ)) ≠ 0 := by positivity
  unfold JsRat.beq JsRat.val
  rw [decide_eq_true_eq, div_eq_div_iff hx' hy']
  constructor
  · intro h ; exact_mod_cast h
  · intro h ; exact_mod_cast h

/-- A freshly constructed property with no constraints, used as the base
state of concrete instances. -/
def baseProp (ty : String) : PropState :=
  ⟨"p", none, ty, none, none, none, none, none, none, none, none, [], true, false,
    JSVal.undef, JSVal.undef⟩

set_option maxRecDepth 8000 in
/-- Claim C1 (counterexample): with `multipleOf = 0.1` (the binary64 value
`3602879701896397 / 2^55`) and all other checks passing, `setValue(0.3)`
(the binary64 value `5404319552844595 / 2^54`) is REJECTED, contrary to
the claim: the binary64 quotient `0.3 / 0.1` is
`2.9999999999999996 = 6755399441055743 / 2^51`, not `3`, so the source's
`quotient - Math.round(quotient) !== 0` test fires. -/
theorem setValue_multipleOf_001_003_rejects :
    (Property.setValue
        { baseProp "number" with multipleOf := some ⟨3602879701896397, 36028797018963968⟩ }
        (JSVal.num ⟨5404319552844595, 18014398509481984⟩)).outcome
      = SetValueOutcome.rejected
          ("Value is not a multiple of: ~3602879701896397/36028797018963968")
      ∧ f64div ⟨5404319552844595, 18014398509481984⟩ ⟨3602879701896397, 36028797018963968⟩
          = ⟨6755399441055743, 2251799813685248⟩ := by
  constructor
  · decide
  · decide

/-- Claim C1 (amended): for a property with `multipleOf = k` (`k` a nonzero
well-formed number) whose other checks pass on `v` (numeric value `q`),
`setValue(v)` succeeds if and only if the binary64 quotient `v / k` is
*exactly* equal to its rounding `Math.round(v / k)` — i.e. the
division-based check tolerates no floating-point imprecision; in
particular `multipleOf = 0.1`, `v = 0.3` is rejected
(`setValue_multipleOf_001_003_rejects`), not accepted. -/
theorem setValue_multipleOf_exact_iff (p : PropState) (v : JSVal) (q k : JsRat)
    (hro : ¬ p.readOnly = some true)
    (hmin : belowMinimum p v = false) (hmax : aboveMaximum p v = false)
    (henum : invalidEnum p v = false)
    (hmk : p.multipleOf = some k) (hkn : ¬ k.n = 0)
    (hq : toNumberVal v = some q) :
    (Property.setValue p v).outcome.isRejected = false ↔
      JsRat.beq (f64div q k) (jsRound (f64div q k)) = true := by
  have hnam : notAMultiple p v
      = !((f64sub (f64div q k) (jsRound (f64div q k))).n = 0) := by
    unfold notAMultiple
    rw [hmk, hq]
    simp [hkn]
  have hdx : 0 < (f64div q k).d := roundF64_d_pos _
  have hdy : 0 < (jsRound (f64div q k)).d := Nat.one_pos
  by_cases hcheck : (f64sub (f64div q k) (jsRound (f64div q k))).n = 0
  · have hnam' : notAMultiple p v = false := by rw [hnam] ; simp [hcheck]
    have hout : (Property.setValue p v).outcome.isRejected = false := by
      simp [Property.setValue, hro, hmin, hmax, hnam', henum, SetValueOutcome.isRejected]
    rw [hout]
    simp only [true_iff]
    exact (f64sub_n_eq_zero_iff _ _ hdx hdy).mp hcheck
  · have hnam' : notAMultiple p v = true := by rw [hnam] ; simp [hcheck]
    have hout : (Property.setValue p v).outcome.isRejected = true := by
      simp [Property.setValue, hro, hmin, hmax, hnam', SetValueOutcome.isRejected]
    rw [hout]
    constructor
    · intro h ; exact absurd h (by simp)
    · intro h
      exact absurd ((f64sub_n_eq_zero_iff _ _ hdx hdy).mpr h) hcheck

/-- Claim C1 (witness for the amended theorem): `multipleOf = 0.5`,
`setValue(1.5)` succeeds — the binary64 quotient is exactly `3`. -/
theorem setValue_multipleOf_exact_iff_witness :
    (Property.setValue { baseProp "number" with multipleOf := some ⟨1, 2⟩ }
        (JSVal.num ⟨3, 2⟩)).outcome.isRejected = false := by
  have h := setValue_multipleOf_exact_iff
    { baseProp "number" with multipleOf := some ⟨1, 2⟩ } (JSVal.num ⟨3, 2⟩)
    ⟨3, 2⟩ ⟨1, 2⟩ (by decide) (by decide) (by decide) (by decide) rfl (by decide) rfl
  exact h.mpr (by decide)

/-- `getValue` resolves with the cached value. -/
theorem getValue_resolves_cached (p : PropState) : (Property.getValue p).2 = p.value := by
  unfold Property.getValue
  split <;> rfl

/-- Claim C2 (confirmed): a `setValue` call that passes every validation
check notifies the device exactly once when the coerced new value differs
(`!==`) from the old cached value and zero times when they coincide; on a
fresh boolean-typed property, `setValue(1)` followed by `setValue(true)`
notifies exactly once in total. -/
theorem setValue_notifies_iff_changed :
    (∀ (p : PropState) (v w : JSVal),
      (Property.setValue p v).outcome = SetValueOutcome.resolved w →
      (Property.setValue p v).notifies
        = (if jsStrictEq p.value (Property.setCachedValue p v).value then 0 else 1))
    ∧ (Property.setValue (baseProp "boolean") (JSVal.num ⟨1, 1⟩)).notifies = 1
    ∧ (Property.setValue (Property.setValue (baseProp "boolean") (JSVal.num ⟨1, 1⟩)).state
        (JSVal.bool true)).notifies = 0 := by
  refine ⟨?_, by decide, by decide⟩
  intro p v w h
  by_cases h1 : p.readOnly = some true
  · simp [Property.setValue, h1] at h
  · cases h2 : belowMinimum p v with
    | true => simp [Property.setValue, h1, h2] at h
    | false =>
    cases h3 : aboveMaximum p v with
    | true => simp [Property.setValue, h1, h2, h3] at h
    | false =>
    cases h4 : notAMultiple p v with
    | true => simp [Property.setValue, h1, h2, h3, h4] at h
    | false =>
    cases h5 : invalidEnum p v with
    | true => simp [Property.setValue, h1, h2, h3, h4, h5] at h
    | false =>
      cases hj : jsStrictEq p.value (Property.setCachedValue p v).value with
      | true =>
        simp [Property.setValue, h1, h2, h3, h4, h5, Property.setCachedValueAndNotify, hj]
      | false =>
        simp [Property.setValue, h1, h2, h3, h4, h5, Property.setCachedValueAndNotify, hj]

/-- Claim C2 (witness): a fresh property receiving a string value notifies
exactly once. -/
theorem setValue_notifies_iff_changed_witness :
    (Property.setValue (baseProp "number") (JSVal.str "x")).notifies
      = (if jsStrictEq (baseProp "number").value
            (Property.setCachedValue (baseProp "number") (JSVal.str "x")).value
         then 0 else 1) :=
  setValue_notifies_iff_changed.1 (baseProp "number") (JSVal.str "x") (JSVal.str "x")
    (by decide)

/-- Claim C3 (confirmed): every rejection of `setValue` leaves the
property state exactly as it was and performs no notification, and a
read-only property rejects every call regardless of the value. -/
theorem setValue_reject_frame :
    (∀ (p : PropState) (v : JSVal) (r : String),
      (Property.setValue p v).outcome = SetValueOutcome.rejected r →
      (Property.setValue p v).state = p ∧ (Property.setValue p v).notifies = 0)
    ∧ (∀ (p : PropState) (v : JSVal), p.readOnly = some true →
      (Property.setValue p v).outcome = SetValueOutcome.rejected "Read-only property"
      ∧ (Property.setValue p v).state = p) := by
  constructor
  · intro p v r h
    by_cases h1 : p.readOnly = some true
    · simp [Property.setValue, h1]
    · cases h2 : belowMinimum p v with
      | true => simp [Property.setValue, h1, h2]
      | false =>
      cases h3 : aboveMaximum p v with
      | true => simp [Property.setValue, h1, h2, h3]
      | false =>
      cases h4 : notAMultiple p v with
      | true => simp [Property.setValue, h1, h2, h3, h4]
      | false =>
      cases h5 : invalidEnum p v with
      | true => simp [Property.setValue, h1, h2, h3, h4, h5]
      | false => simp [Property.setValue, h1, h2, h3, h4, h5] at h
  · intro p v h1
    simp [Property.setValue, h1]

/-- Claim C3 (witness): a read-only property rejects a write and its state
is unchanged. -/
theorem setValue_reject_frame_witness :
    ((Property.setValue { baseProp "number" with readOnly := some true }
        (JSVal.num ⟨7, 1⟩)).state = { baseProp "number" with readOnly := some true }
      ∧ (Property.setValue { baseProp "number" with readOnly := some true }
        (JSVal.num ⟨7, 1⟩)).notifies = 0)
    ∧ (Property.setValue { baseProp "number" with readOnly := some true }
        (JSVal.num ⟨7, 1⟩)).outcome = SetValueOutcome.rejected "Read-only property" :=
  ⟨setValue_reject_frame.1 { baseProp "number" with readOnly := some true }
      (JSVal.num ⟨7, 1⟩) "Read-only property" (by decide),
   (setValue_reject_frame.2 { baseProp "number" with readOnly := some true }
      (JSVal.num ⟨7, 1⟩) (by decide)).1⟩

/-- Claim C6 (confirmed): on a property whose type is `"boolean"`, every
write to the cache — `setCachedValue`, `setCachedValueAndNotify`, or a
successful `setValue`, whatever the input's representation — stores the
strict boolean `!!v`, the resolved value is that boolean, and a subsequent
`getValue` resolves to it. -/
theorem boolean_cache_strict :
    ∀ (p : PropState) (v : JSVal), p.type = "boolean" →
      (Property.setCachedValue p v).value = JSVal.bool (jsTruthy v)
      ∧ (Property.setCachedValueAndNotify p v).1.value = JSVal.bool (jsTruthy v)
      ∧ (∀ w, (Property.setValue p v).outcome = SetValueOutcome.resolved w →
          (Property.setValue p v).state.value = JSVal.bool (jsTruthy v)
          ∧ w = JSVal.bool (jsTruthy v))
      ∧ (Property.getValue (Property.setCachedValue p v)).2 = JSVal.bool (jsTruthy v) := by
  intro p v hty
  have hcv : (Property.setCachedValue p v).value = JSVal.bool (jsTruthy v) := by
    simp [Property.setCachedValue, hty]
  refine ⟨hcv, hcv, ?_, ?_⟩
  · intro w h
    by_cases h1 : p.readOnly = some true
    · simp [Property.setValue, h1] at h
    · cases h2 : belowMinimum p v with
      | true => simp [Property.setValue, h1, h2] at h
      | false =>
      cases h3 : aboveMaximum p v with
      | true => simp [Property.setValue, h1, h2, h3] at h
      | false =>
      cases h4 : notAMultiple p v with
      | true => simp [Property.setValue, h1, h2, h3, h4] at h
      | false =>
      cases h5 : invalidEnum p v with
      | true => simp [Property.setValue, h1, h2, h3, h4, h5] at h
      | false =>
        have hst : (Property.setValue p v).state = Property.setCachedValue p v := by
          simp [Property.setValue, h1, h2, h3, h4, h5, Property.setCachedValueAndNotify]
        have hw : w = (Property.setValue p v).state.value := by
          simp [Property.setValue, h1, h2, h3, h4, h5, Property.setCachedValueAndNotify] at h
          rw [hst, ← h]
        rw [hst, hw, hst]
        exact ⟨hcv, hcv⟩
  · rw [getValue_resolves_cached]
    exact hcv

/-- Claim C6 (witness): a boolean property caching the string `"x"`, the
number `0`, and an object stores strict booleans. -/
theorem boolean_cache_strict_witness :
    (Property.setCachedValue (baseProp "boolean") (JSVal.str "x")).value
        = JSVal.bool (jsTruthy (JSVal.str "x"))
    ∧ (Property.setCachedValue (baseProp "boolean") (JSVal.num ⟨0, 1⟩)).value
        = JSVal.bool (jsTruthy (JSVal.num ⟨0, 1⟩))
    ∧ (Property.setCachedValue (baseProp "boolean") (JSVal.obj 0)).value
        = JSVal.bool (jsTruthy (JSVal.obj 0)) :=
  ⟨(boolean_cache_strict (baseProp "boolean") (JSVal.str "x") rfl).1,
   (boolean_cache_strict (baseProp "boolean") (JSVal.num ⟨0, 1⟩) rfl).1,
   (boolean_cache_strict (baseProp "boolean") (JSVal.obj 0) rfl).1⟩

/-- Changing only the `enum` field does not affect the minimum guard. -/
theorem belowMinimum_enums (p : PropState) (e : Option (List String)) (v : JSVal) :
    belowMinimum { p with enums := e } v = belowMinimum p v := rfl

/-- Changing only the `enum` field does not affect the maximum guard. -/
theorem aboveMaximum_enums (p : PropState) (e : Option (List String)) (v : JSVal) :
    aboveMaximum { p with enums := e } v = aboveMaximum p v := rfl

/-- Changing only the `enum` field does not affect the multiple-of guard. -/
theorem notAMultiple_enums (p : PropState) (e : Option (List String)) (v : JSVal) :
    notAMultiple { p with enums := e } v = notAMultiple p v := rfl

/-- Changing only the `enum` field does not affect the stored value. -/
theorem setCachedValue_value_enums (p : PropState) (e : Option (List String)) (v : JSVal) :
    (Property.setCachedValue { p with enums := e } v).value
      = (Property.setCachedValue p v).value := by
  by_cases hty : p.type = "boolean" <;> simp [Property.setCachedValue, hty]

/-- Changing only the `enum` field does not affect the stored value. -/
theorem sCVN_value_enums (p : PropState) (e : Option (List String)) (v : JSVal) :
    (Property.setCachedValueAndNotify { p with enums := e } v).1.value
      = (Property.setCachedValueAndNotify p v).1.value := by
  simp [Property.setCachedValueAndNotify, setCachedValue_value_enums]

/-- Changing only the `enum` field does not affect change detection. -/
theorem sCVN_changed_enums (p : PropState) (e : Option (List String)) (v : JSVal) :
    (Property.setCachedValueAndNotify { p with enums := e } v).2
      = (Property.setCachedValueAndNotify p v).2 := by
  simp [Property.setCachedValueAndNotify, setCachedValue_value_enums]

/-- `List.contains` is invariant under permutation. -/
theorem contains_perm (es es' : List String) (h : es.Perm es') (x : String) :
    es.contains x = es'.contains x := by
  show List.elem x es = List.elem x es'
  rw [List.elem_eq_mem, List.elem_eq_mem]
  exact decide_eq_decide.mpr h.mem_iff

/-- Claim C7 (confirmed): `setValue` runs its checks in the fixed order
read-only, minimum, maximum, multipleOf, enum, rejecting with the reason of
the first failing check regardless of later checks; the enum check fires
only when a non-empty enum is defined, membership is of the string
rendering of the value, and a permutation of the enum members does not
change the outcome. -/
theorem setValue_check_order :
    (∀ (p : PropState) (v : JSVal), p.readOnly = some true →
        (Property.setValue p v).outcome = SetValueOutcome.rejected "Read-only property")
    ∧ (∀ (p : PropState) (v : JSVal), ¬ p.readOnly = some true → belowMinimum p v = true →
        (Property.setValue p v).outcome = SetValueOutcome.rejected
          ("Value less than minimum: " ++ jsNumToString (p.minimum.getD ⟨0, 1⟩)))
    ∧ (∀ (p : PropState) (v : JSVal), ¬ p.readOnly = some true → belowMinimum p v = false →
        aboveMaximum p v = true →
        (Property.setValue p v).outcome = SetValueOutcome.rejected
          ("Value greater than maximum: " ++ jsNumToString (p.maximum.getD ⟨0, 1⟩)))
    ∧ (∀ (p : PropState) (v : JSVal), ¬ p.readOnly = some true → belowMinimum p v = false →
        aboveMaximum p v = false → notAMultiple p v = true →
        (Property.setValue p v).outcome = SetValueOutcome.rejected
          ("Value is not a multiple of: " ++ jsNumToString (p.multipleOf.getD ⟨0, 1⟩)))
    ∧ (∀ (p : PropState) (v : JSVal), ¬ p.readOnly = some true → belowMinimum p v = false →
        aboveMaximum p v = false → notAMultiple p v = false → invalidEnum p v = true →
        (Property.setValue p v).outcome = SetValueOutcome.rejected "Invalid enum value")
    ∧ (∀ (p : PropState) (v : JSVal), p.enums = none ∨ p.enums = some [] →
        ¬ p.readOnly = some true → belowMinimum p v = false → aboveMaximum p v = false →
        notAMultiple p v = false →
        (Property.setValue p v).outcome
          = SetValueOutcome.resolved (Property.setCachedValue p v).value)
    ∧ (∀ (p : PropState) (v : JSVal) (es : List String), p.enums = some es → 0 < es.length →
        invalidEnum p v = !(es.contains (jsToString v)))
    ∧ (∀ (p : PropState) (v : JSVal) (es es' : List String), es.Perm es' →
        (Property.setValue { p with enums := some es } v).outcome
          = (Property.setValue { p with enums := some es' } v).outcome) := by
  refine ⟨?_, ?_, ?_, ?_, ?_, ?_, ?_, ?_⟩
  · intro p v h1
    simp [Property.setValue, h1]
  · intro p v h1 h2
    simp [Property.setValue, h1, h2]
  · intro p v h1 h2 h3
    simp [Property.setValue, h1, h2, h3]
  · intro p v h1 h2 h3 h4
    simp [Property.setValue, h1, h2, h3, h4]
  · intro p v h1 h2 h3 h4 h5
    simp [Property.setValue, h1, h2, h3, h4, h5]
  · intro p v he h1 h2 h3 h4
    have h5 : invalidEnum p v = false := by
      rcases he with he | he <;> simp [invalidEnum, he]
    simp [Property.setValue, h1, h2, h3, h4, h5, Property.setCachedValueAndNotify]
  · intro p v es hes hlen
    simp [invalidEnum, hes, hlen]
  · intro p v es es' h
    have hinv : invalidEnum { p with enums := some es } v
        = invalidEnum { p with enums := some es' } v := by
      simp only [invalidEnum]
      rw [h.length_eq, contains_perm es es' h]
    by_cases h1 : p.readOnly = some true
    · simp [Property.setValue, h1]
    · cases h2 : belowMinimum p v with
      | true =>
        simp [Property.setValue, h1, h2, belowMinimum_enums]
      | false =>
      cases h3 : aboveMaximum p v with
      | true =>
        simp [Property.setValue, h1, h2, h3, belowMinimum_enums, aboveMaximum_enums]
      | false =>
      cases h4 : notAMultiple p v with
      | true =>
        simp [Property.setValue, h1, h2, h3, h4, belowMinimum_enums, aboveMaximum_enums,
          notAMultiple_enums]
      | false =>
      cases h5 : invalidEnum { p with enums := some es' } v with
      | true =>
        simp [Property.setValue, h1, h2, h3, h4, hinv, h5, belowMinimum_enums,
          aboveMaximum_enums, notAMultiple_enums]
      | false =>
        simp [Property.setValue, h1, h2, h3, h4, hinv, h5, belowMinimum_enums,
          aboveMaximum_enums, notAMultiple_enums, sCVN_value_enums, sCVN_changed_enums,
          Property.setCachedValueAndNotify, setCachedValue_value_enums]

/-- A numeric property with a minimum and an enum, both violated by `3`. -/
def minAndEnumProp : PropState :=
  { baseProp "number" with minimum := some ⟨5, 1⟩, enums := some ["7"] }

/-- Claim C7 (witness): a value that violates both the minimum and the
enum constraint is reported for the minimum only; a permuted enum accepts
the same member. -/
theorem setValue_check_order_witness :
    (Property.setValue minAndEnumProp (JSVal.num ⟨3, 1⟩)).outcome
      = SetValueOutcome.rejected "Value less than minimum: 5"
    ∧ (Property.setValue { baseProp "string" with enums := some ["on", "off"] }
        (JSVal.str "off")).outcome
      = (Property.setValue { baseProp "string" with enums := some ["off", "on"] }
        (JSVal.str "off")).outcome := by
  constructor
  · exact setValue_check_order.2.1 minAndEnumProp (JSVal.num ⟨3, 1⟩) (by decide) (by decide)
  · exact setValue_check_order.2.2.2.2.2.2.2 (baseProp "string") (JSVal.str "off")
      ["on", "off"] ["off", "on"] (List.Perm.swap "off" "on" [])

/-- Claim C9 (counterexample): the enum rejection reason is the constant
string `"Invalid enum value"`; for the offending value `"zzz"` the message
does not contain the value (it contains no `'z'` at all). -/
theorem invalid_enum_message_lacks_value :
    (Property.setValue { baseProp "string" with enums := some ["on"] }
        (JSVal.str "zzz")).outcome = SetValueOutcome.rejected "Invalid enum value"
    ∧ jsToString (JSVal.str "zzz") = "zzz"
    ∧ ¬ ('z' ∈ "Invalid enum value".data) := by
  refine ⟨by decide, rfl, by decide⟩

/-- Claim C9 (amended): every rejection reason is one of five fixed-form
strings identifying the failing constraint (the five forms are pairwise
distinct); the minimum, maximum, and multiple-of messages carry the
offending bound (rendered as its decimal numeral for integer bounds), while
the read-only and enum messages are constants carrying no bound or value. -/
theorem setValue_reject_message_forms :
    (∀ (p : PropState) (v : JSVal) (r : String),
      (Property.setValue p v).outcome = SetValueOutcome.rejected r →
      r = "Read-only property"
      ∨ (∃ m, p.minimum = some m ∧ r = "Value less than minimum: " ++ jsNumToString m)
      ∨ (∃ m, p.maximum = some m ∧ r = "Value greater than maximum: " ++ jsNumToString m)
      ∨ (∃ m, p.multipleOf = some m ∧ r = "Value is not a multiple of: " ++ jsNumToString m)
      ∨ r = "Invalid enum value")
    ∧ (∀ m : Int, jsNumToString ⟨m, 1⟩ = toString m)
    ∧ ["Read-only property", "Value less than minimum: ", "Value greater than maximum: ",
       "Value is not a multiple of: ", "Invalid enum value"].Nodup := by
  refine ⟨?_, ?_, by decide⟩
  · intro p v r h
    by_cases h1 : p.readOnly = some true
    · simp [Property.setValue, h1] at h
      exact Or.inl h.symm
    · cases h2 : belowMinimum p v with
      | true =>
        simp [Property.setValue, h1, h2] at h
        refine Or.inr (Or.inl ?_)
        cases hm : p.minimum with
        | none => rw [belowMinimum, hm] at h2 ; exact absurd h2 (by simp)
        | some m => exact ⟨m, rfl, by rw [← h, hm] ; rfl⟩
      | false =>
      cases h3 : aboveMaximum p v with
      | true =>
        simp [Property.setValue, h1, h2, h3] at h
        refine Or.inr (Or.inr (Or.inl ?_))
        cases hm : p.maximum with
        | none => rw [aboveMaximum, hm] at h3 ; exact absurd h3 (by simp)
        | some m => exact ⟨m, rfl, by rw [← h, hm] ; rfl⟩
      | false =>
      cases h4 : notAMultiple p v with
      | true =>
        simp [Property.setValue, h1, h2, h3, h4] at h
        refine Or.inr (Or.inr (Or.inr (Or.inl ?_)))
        cases hm : p.multipleOf with
        | none => rw [notAMultiple, hm] at h4 ; exact absurd h4 (by simp)
        | some m => exact ⟨m, rfl, by rw [← h, hm] ; rfl⟩
      | false =>
      cases h5 : invalidEnum p v with
      | true =>
        simp [Property.setValue, h1, h2, h3, h4, h5] at h
        exact Or.inr (Or.inr (Or.inr (Or.inr h.symm)))
      | false =>
        simp [Property.setValue, h1, h2, h3, h4, h5] at h
  · intro m
    simp [jsNumToString]

/-- Claim C9 (witness): a minimum rejection carries the bound `5`. -/
theorem setValue_reject_message_forms_witness :
    ("Value less than minimum: 5" : String) = "Read-only property"
    ∨ (∃ m, ({ baseProp "number" with minimum := some ⟨5, 1⟩ } : PropState).minimum = some m
        ∧ ("Value less than minimum: 5" : String)
            = "Value less than minimum: " ++ jsNumToString m)
    ∨ (∃ m, ({ baseProp "number" with minimum := some ⟨5, 1⟩ } : PropState).maximum = some m
        ∧ ("Value less than minimum: 5" : String)
            = "Value greater than maximum: " ++ jsNumToString m)
    ∨ (∃ m, ({ baseProp "number" with minimum := some ⟨5, 1⟩ } : PropState).multipleOf = some m
        ∧ ("Value less than minimum: 5" : String)
            = "Value is not a multiple of: " ++ jsNumToString m)
    ∨ ("Value less than minimum: 5" : String) = "Invalid enum value" :=
  setValue_reject_message_forms.1 { baseProp "number" with minimum := some ⟨5, 1⟩ }
    (JSVal.num ⟨3, 1⟩) "Value less than minimum: 5" (by decide)

/-- Loose equality is reflexive on the values of the model. -/
theorem jsLooseEq_refl (v : JSVal) : jsLooseEq v v = true := by
  cases v <;> simp [jsLooseEq, JsRat.beq]

/-- Claim C10 (counterexample): after caching `null` over an initial
`undefined`, `getValue` leaves `prevGetValue` at `undefined` (because
`null != undefined` is false under loose equality), so afterwards
`prevGetValue` is *not* equal to the cached value. -/
theorem getValue_prev_not_updated :
    (Property.setValue (baseProp "number") JSVal.null).outcome
        = SetValueOutcome.resolved JSVal.null
    ∧ (Property.getValue
        (Property.setValue (baseProp "number") JSVal.null).state).1.prevGetValue
        = JSVal.undef
    ∧ (Property.getValue
        (Property.setValue (baseProp "number") JSVal.null).state).1.value
        = JSVal.null
    ∧ JSVal.undef ≠ JSVal.null := by
  refine ⟨by decide, by decide, by decide, by decide⟩

/-- Claim C10 (amended): `getValue` always resolves with the cached value
(total, never rejects), changes no field other than `prevGetValue`, and
assigns `prevGetValue := value` exactly when the two were not *loosely*
(`!=`) equal; afterwards `prevGetValue` is loosely equal to the cached
value, but not necessarily identical to it (`null` vs `undefined`, see
`getValue_prev_not_updated`). -/
theorem getValue_frame :
    ∀ p : PropState,
      (Property.getValue p).2 = p.value
      ∧ (Property.getValue p).1
          = { p with prevGetValue :=
                if jsLooseEq p.value p.prevGetValue then p.prevGetValue else p.value }
      ∧ jsLooseEq (Property.getValue p).1.value (Property.getValue p).1.prevGetValue = true := by
  intro p
  refine ⟨getValue_resolves_cached p, ?_, ?_⟩
  · unfold Property.getValue
    cases hc : jsLooseEq p.value p.prevGetValue <;> simp [hc]
  · unfold Property.getValue
    cases hc : jsLooseEq p.value p.prevGetValue with
    | true => simp [hc]
    | false => simp [hc, jsLooseEq_refl]

/-- Claim C4 (code bug): on an action constructed with no input (`input`
is `undefined`) and not yet finished, `asActionDescription` *does* emit
both the `input` key and the `timeCompleted` key, each with value
`undefined` — the source guards compare with `!== null`, but the absent
fields are `undefined`, and `undefined !== null` holds, so the guards
never omit them.  The claim (and the spec's sparseness contract) says
both keys are omitted. -/
theorem asActionDescription_emits_undefined_keys :
    Action.asActionDescription (Action.create "a1" "act" JSVal.undef 5)
      = [("name", JSVal.str "act"), ("timeRequested", JSVal.str "5"),
         ("status", JSVal.str "created"), ("input", JSVal.undef),
         ("timeCompleted", JSVal.undef)] := by
  decide

/-- Claim C5 (counterexample): on a property whose `title` is undefined,
the returned description still contains the `title` key (with value
`undefined`), contrary to the claim that the key is omitted. -/
theorem asPropertyDescription_title_key_present :
    ("title", DescVal.undef) ∈ Property.asPropertyDescription (baseProp "number")
    ∧ (baseProp "number").title = none := by
  refine ⟨by decide, rfl⟩

/-- Claim C5 (amended): `asPropertyDescription` is a dense object literal:
it always emits all eleven description keys, in the source's order; an
optional field that is undefined is emitted with value `undefined` (never
as `null`, which no description field can hold), and `type` is always
present with the property's type. -/
theorem asPropertyDescription_dense :
    ∀ p : PropState,
      (Property.asPropertyDescription p).map Prod.fst
        = ["title", "type", "@type", "unit", "description", "minimum", "maximum",
           "enum", "readOnly", "multipleOf", "links"]
      ∧ ("title", oS p.title) ∈ Property.asPropertyDescription p
      ∧ ("type", DescVal.s p.type) ∈ Property.asPropertyDescription p
      ∧ ("@type", oS p.atType) ∈ Property.asPropertyDescription p
      ∧ ("unit", oS p.unit) ∈ Property.asPropertyDescription p
      ∧ ("description", oS p.descr) ∈ Property.asPropertyDescription p
      ∧ ("minimum", oN p.minimum) ∈ Property.asPropertyDescription p
      ∧ ("maximum", oN p.maximum) ∈ Property.asPropertyDescription p
      ∧ ("enum", oSL p.enums) ∈ Property.asPropertyDescription p
      ∧ ("readOnly", oB p.readOnly) ∈ Property.asPropertyDescription p
      ∧ ("multipleOf", oN p.multipleOf) ∈ Property.asPropertyDescription p
      ∧ ("links", DescVal.ll p.links) ∈ Property.asPropertyDescription p := by
  intro p
  refine ⟨rfl, ?_, ?_, ?_, ?_, ?_, ?_, ?_, ?_, ?_, ?_, ?_⟩ <;>
    simp [Property.asPropertyDescription]

/-- Claim C8 (confirmed): a fresh action has status `'created'`, a
`timeRequested` stamp and no `timeCompleted`; `start()` sets status
`'pending'` and notifies exactly once; `finish()` sets status
`'completed'`, stamps `timeCompleted` no earlier than `timeRequested`
(monotonic clock hypothesis `t0 ≤ t1`), and notifies exactly once — two
notifications across the sequence.  All three operations are total: none
can fail. -/
theorem action_lifecycle :
    ∀ (i nm : String) (input : JSVal) (t0 t1 : Nat), t0 ≤ t1 →
      (Action.create i nm input t0).status = "created"
      ∧ (Action.create i nm input t0).timeRequested = t0
      ∧ (Action.create i nm input t0).timeCompleted = none
      ∧ (Action.start (Action.create i nm input t0)).1.status = "pending"
      ∧ (Action.start (Action.create i nm input t0)).2 = 1
      ∧ (Action.finish (Action.start (Action.create i nm input t0)).1 t1).1.status
          = "completed"
      ∧ (Action.finish (Action.start (Action.create i nm input t0)).1 t1).1.timeCompleted
          = some t1
      ∧ (Action.finish (Action.start (Action.create i nm input t0)).1 t1).1.timeRequested
          ≤ t1
      ∧ (Action.start (Action.create i nm input t0)).2
          + (Action.finish (Action.start (Action.create i nm input t0)).1 t1).2 = 2 := by
  intro i nm input t0 t1 h
  exact ⟨rfl, rfl, rfl, rfl, rfl, rfl, rfl, h, rfl⟩

/-- Claim C8 (witness): a concrete action started at time 0 and finished
at time 1. -/
theorem action_lifecycle_witness :
    (Action.create "a1" "act" JSVal.undef 0).status = "created"
    ∧ (Action.create "a1" "act" JSVal.undef 0).timeRequested = 0
    ∧ (Action.create "a1" "act" JSVal.undef 0).timeCompleted = none
    ∧ (Action.start (Action.create "a1" "act" JSVal.undef 0)).1.status = "pending"
    ∧ (Action.start (Action.create "a1" "act" JSVal.undef 0)).2 = 1
    ∧ (Action.finish (Action.start (Action.create "a1" "act" JSVal.undef 0)).1 1).1.status
        = "completed"
    ∧ (Action.finish
        (Action.start (Action.create "a1" "act" JSVal.undef 0)).1 1).1.timeCompleted
        = some 1
    ∧ (Action.finish
        (Action.start (Action.create "a1" "act" JSVal.undef 0)).1 1).1.timeRequested ≤ 1
    ∧ (Action.start (Action.create "a1" "act" JSVal.undef 0)).2
        + (Action.finish (Action.start (Action.create "a1" "act" JSVal.undef 0)).1 1).2
        = 2 :=
  action_lifecycle "a1" "act" JSVal.undef 0 1 (by decide)
